import Mathlib

/-
Verification of the boundary-construction and containment-testing core of
`Checker.py` (Land_Checker).  Coordinates are modelled as exact rationals;
the geometry backend (shapely `Polygon` / `covers` / `buffer(0)`) is modelled
by explicit computational geometry over ℚ.  Ring points are `(lat, lon)`
pairs; geometry-space points are `(x, y) = (lon, lat)` pairs, matching the
`Polygon([(lon, lat) ...])` and `Point(lon, lat)` calls in the source.
-/

namespace LandChecker

/-- Model of `close_ring` (Checker.py lines 85-88): append the first point when
the ring is non-empty and its first and last points differ. -/
def close_ring {α : Type} [DecidableEq α] (points : List α) : List α :=
  match points.head?, points.getLast? with
  | some h, some l => if h ≠ l then points ++ [h] else points
  | _, _ => points

/-- Componentwise arithmetic-mean centroid, `pts.mean(axis=0)` in
`order_points_by_angle` (Checker.py line 79). -/
def centroid (pts : List (ℚ × ℚ)) : ℚ × ℚ :=
  ((pts.map Prod.fst).sum / pts.length, (pts.map Prod.snd).sum / pts.length)

/-- Delta vector from the centroid, as `(Δlat, Δlon)`, i.e. `(y, x)` for the
`np.arctan2(pts[:,0] - center[0], pts[:,1] - center[1])` call. -/
def delta (c p : ℚ × ℚ) : ℚ × ℚ := (p.1 - c.1, p.2 - c.2)

/-- Band of the angle `atan2 d.1 d.2` within `(-π, π]`:
band 0 is `(-π, 0)`, band 1 is `{0}` (the origin included, as
`atan2 0 0 = 0`), band 2 is `(0, π)`, band 3 is `{π}`. -/
def angClass (d : ℚ × ℚ) : ℕ :=
  if d.1 < 0 then 0
  else if d.1 = 0 ∧ 0 ≤ d.2 then 1
  else if 0 < d.1 then 2
  else 3

/-- Cross product of the plane vectors `(x, y) = (d.2, d.1)` and `(e.2, e.1)`. -/
def cross2 (d e : ℚ × ℚ) : ℚ := d.2 * e.1 - d.1 * e.2

/-- Decidable comparison of `atan2 d.1 d.2 < atan2 e.1 e.2`: compare angle
bands first; inside the open half-plane bands the sign of the cross product
decides. -/
def angLt (d e : ℚ × ℚ) : Bool :=
  decide (angClass d < angClass e ∨
    (angClass d = angClass e ∧ (angClass d = 0 ∨ angClass d = 2) ∧ 0 < cross2 d e))

/-- Comparator used to model `np.argsort(angles)` (Checker.py line 81) on
index-tagged points: ascending angle, with ties broken by the original index,
i.e. a stable argsort.  The stable tie-break is a deterministic totalization
chosen for the embedding: the code's default `np.argsort` kind
(quicksort/introsort) is documented not stable, and preserves input order on
equal keys only when the array falls through to its insertion-sort path
(at most 16 elements), so the tie order is not a guarantee of the code — see
the C4 record, where this gap is surfaced as a code bug against the spec's
stable-sort requirement.  On the concrete scenario inputs proved below (at
most four points) the stable model coincides with the code's behaviour. -/
def angleLE (c : ℚ × ℚ) (a b : ℕ × (ℚ × ℚ)) : Bool :=
  angLt (delta c a.2) (delta c b.2) ||
    (!(angLt (delta c b.2) (delta c a.2)) && decide (a.1 ≤ b.1))

/-- The comparison of `angleLE` as a decidable relation. -/
abbrev angleRel (c : ℚ × ℚ) (a b : ℕ × (ℚ × ℚ)) : Prop := angleLE c a b = true

/-- Index-tagged angular ordering: `np.argsort(angles)` applied to the
enumerated input, keeping the index of each point.  The sort is the stable
totalization described at `angleLE`; the code's default argsort fixes no tie
order. -/
def orderIdx (pts : List (ℚ × ℚ)) : List (ℕ × (ℚ × ℚ)) :=
  (pts.enum).insertionSort (angleRel (centroid pts))

/-- Model of `order_points_by_angle` (Checker.py lines 73-83): sort the points
by the angle `atan2(lat - center.lat, lon - center.lon)` around the centroid. -/
def order_points_by_angle (pts : List (ℚ × ℚ)) : List (ℚ × ℚ) :=
  (orderIdx pts).map Prod.snd

/-- Model of a shapely `Polygon`: its closed shell coordinate ring, with
points as `(x, y) = (lon, lat)`. -/
structure SPolygon where
  shell : List (ℚ × ℚ)
deriving DecidableEq

/-- Decides whether every point of the list is collinear with every other
pair.  Models "the polygon is empty after `buffer(0)` repair"
(Checker.py lines 104-109): a shell whose points are all collinear has no
interior, and the zero-distance buffer regularizes it to an empty geometry. -/
def degenerate (l : List (ℚ × ℚ)) : Bool :=
  l.all fun p => l.all fun q => l.all fun r =>
    decide ((q.1 - p.1) * (r.2 - p.2) = (q.2 - p.2) * (r.1 - p.1))

/-- Model of `build_safe_polygon` (Checker.py lines 90-112): order the points
around the centroid, close the ring, build the `(lon, lat)` polygon, repair it
with `buffer(0)` when invalid, and return `none` for the polygon when the
repaired geometry is empty.  The ordered closed ring is always returned as the
second component. -/
def build_safe_polygon (latlon_points : List (ℚ × ℚ)) :
    Option SPolygon × List (ℚ × ℚ) :=
  let ordered := close_ring (order_points_by_angle latlon_points)
  let poly : SPolygon := ⟨ordered.map fun q => (q.2, q.1)⟩
  if degenerate poly.shell then (none, ordered) else (some poly, ordered)

/-- Consecutive edges of a closed shell ring. -/
def segs (shell : List (ℚ × ℚ)) : List ((ℚ × ℚ) × (ℚ × ℚ)) :=
  shell.zip shell.tail

/-- Decides whether the point `p` lies on the closed segment from `a` to `b`. -/
def onSegment (p a b : ℚ × ℚ) : Bool :=
  decide ((b.1 - a.1) * (p.2 - a.2) = (b.2 - a.2) * (p.1 - a.1) ∧
    min a.1 b.1 ≤ p.1 ∧ p.1 ≤ max a.1 b.1 ∧
    min a.2 b.2 ≤ p.2 ∧ p.2 ≤ max a.2 b.2)

/-- Decides whether the point `p` lies on the boundary of the polygon. -/
def onBoundary (g : SPolygon) (p : ℚ × ℚ) : Bool :=
  (segs g.shell).any fun e => onSegment p e.1 e.2

/-- Decides whether the horizontal ray from `p` to the left crosses the edge
from `a` to `b`, with the usual half-open vertex rule of the even-odd test. -/
def rayCrosses (p a b : ℚ × ℚ) : Bool :=
  if a.2 ≤ p.2 ∧ p.2 < b.2 then
    decide ((p.1 - a.1) * (b.2 - a.2) < (p.2 - a.2) * (b.1 - a.1))
  else if b.2 ≤ p.2 ∧ p.2 < a.2 then
    decide ((p.2 - a.2) * (b.1 - a.1) < (p.1 - a.1) * (b.2 - a.2))
  else false

/-- Model of shapely `polygon.covers(point)`: the boundary-inclusive
point-in-polygon test, by boundary membership or even-odd ray crossing
parity. -/
def covers (g : SPolygon) (p : ℚ × ℚ) : Bool :=
  onBoundary g p ||
    decide (((segs g.shell).countP fun e => rayCrosses p e.1 e.2) % 2 = 1)

/-- Outcome of one user query (Checker.py lines 204-217): unparseable text,
out-of-range coordinates, or a containment answer. -/
inductive QueryResult where
  | parseFailure : QueryResult
  | rangeError : QueryResult
  | answer : Bool → QueryResult
deriving DecidableEq

/-- Model of the range check `-90 <= lat <= 90 and -180 <= lon <= 180`
(Checker.py line 211). -/
def rangeOk (lat lon : ℚ) : Bool :=
  decide (-90 ≤ lat ∧ lat ≤ 90 ∧ -180 ≤ lon ∧ lon ≤ 180)

/-- Model of the containment evaluation `sub_poly.covers(p) or
main_poly.covers(p)` (Checker.py line 216), over the registry
`[sub_poly, main_poly]` in order, with the short-circuiting `or`. -/
def containment (regions : List SPolygon) (lat lon : ℚ) : Bool :=
  regions.any fun g => covers g (lon, lat)

/-- Model of the validated query evaluation (Checker.py lines 210-217). -/
def evaluate_query (regions : List SPolygon) (lat lon : ℚ) : QueryResult :=
  if rangeOk lat lon then QueryResult.answer (containment regions lat lon)
  else QueryResult.rangeError

/-- Model of the registry construction (Checker.py lines 174-179): both vertex
groups must produce a polygon, otherwise `st.stop()` halts initialization and
no queries are served. -/
def build_registry (sub_points main_points : List (ℚ × ℚ)) :
    Option (List SPolygon) :=
  match (build_safe_polygon sub_points).1, (build_safe_polygon main_points).1 with
  | some sp, some mp => some [sp, mp]
  | _, _ => none

/-- Accumulating scanner for a maximal run of decimal digits: returns the
value of the run, its length, and the unconsumed rest. -/
def takeDigitsAux (acc : ℕ) (n : ℕ) : List Char → ℕ × ℕ × List Char
  | c :: rest =>
    if c.isDigit then takeDigitsAux (10 * acc + (c.toNat - 48)) (n + 1) rest
    else (acc, n, c :: rest)
  | [] => (acc, n, [])

/-- Scans a maximal run of decimal digits from the front of the character
list. -/
def takeDigits (cs : List Char) : ℕ × ℕ × List Char := takeDigitsAux 0 0 cs

/-- Consumes an optional leading sign, returning whether the value is negated
and the unconsumed rest. -/
def parseSign : List Char → Bool × List Char
  | c :: rest =>
    if c = '-' then (true, rest)
    else if c = '+' then (false, rest)
    else (false, c :: rest)
  | [] => (false, [])

/-- Parses an optional exponent suffix and requires the end of the token:
models the tail of the Python `float` literal grammar. -/
def finishFloat (neg : Bool) (mant : ℚ) : List Char → Option ℚ
  | [] => some (if neg then -mant else mant)
  | c :: rest =>
    if c = 'e' ∨ c = 'E' then
      let s := parseSign rest
      let e := takeDigits s.2
      if e.2.1 = 0 ∨ e.2.2 ≠ [] then none
      else
        let ex : ℤ := if s.1 then -(e.1 : ℤ) else (e.1 : ℤ)
        some ((if neg then -mant else mant) * (10 : ℚ) ^ ex)
    else none

/-- Model of Python `float(token)` on a whitespace-free token as used in the
decimal branch (Checker.py lines 47-51): optional sign, digits with optional
fraction, optional exponent.  The special forms `inf`, `nan`, underscore
separators and non-ASCII digits are outside the model. -/
def pyFloat (s : String) : Option ℚ :=
  let sg := parseSign s.data
  let ip := takeDigits sg.2
  match ip.2.2 with
  | '.' :: cs3 =>
    let fp := takeDigits cs3
    if ip.2.1 + fp.2.1 = 0 then none
    else finishFloat sg.1 ((ip.1 : ℚ) + (fp.1 : ℚ) / 10 ^ fp.2.1) fp.2.2
  | _ =>
    if ip.2.1 = 0 then none else finishFloat sg.1 (ip.1 : ℚ) ip.2.2

/-- Model of `str.replace(",", " ")` at character level: the pattern is a
single character, so the replacement is a pointwise map. -/
def commasToSpaces (cs : List Char) : List Char :=
  cs.map fun c => if c = ',' then ' ' else c

/-- Model of Python `str.split()` with no separator: split on runs of
whitespace, dropping empty tokens. -/
def splitWs (cs : List Char) : List (List Char) :=
  (cs.foldr
    (fun c acc =>
      if c.isWhitespace then [] :: acc
      else
        match acc with
        | [] => [[c]]
        | t :: ts => (c :: t) :: ts)
    []).filter fun t => t ≠ []

/-- Model of `user_input.replace(",", " ").split()` (Checker.py line 47):
replace commas with spaces, split on whitespace, drop empty tokens. -/
def splitTokens (s : String) : List String :=
  (splitWs (commasToSpaces s.data)).map fun t => String.mk t

/-- Model of the decimal branch of `parse_decimal_or_dms_text` (Checker.py
lines 46-53): with at least two tokens, parse the first as latitude and the
second as longitude; any failure falls through (`except: pass`). -/
def decimalBranch (s : String) : Option (ℚ × ℚ) :=
  match splitTokens s with
  | a :: b :: _ =>
    match pyFloat a, pyFloat b with
    | some lat, some lon => some (lat, lon)
    | _, _ => none
  | _ => none

/-- Degree sign of the DMS pattern. -/
def degChar : Char := '°'

/-- Minutes mark (apostrophe, U+0027) of the DMS pattern. -/
def minChar : Char := Char.ofNat 39

/-- Seconds mark (double quote, U+0022) of the DMS pattern. -/
def secChar : Char := Char.ofNat 34

/-- Decides whether a character is one of the four direction letters of the
DMS pattern. -/
def isDirChar (c : Char) : Bool :=
  decide (c = 'N' ∨ c = 'S' ∨ c = 'E' ∨ c = 'W')

/-- One captured group of the DMS regular expression
`(\d+)[°](\d+)['](\d+\.?\d*)["]([NSEW])` (Checker.py line 57). -/
structure DMSPart where
  degs : ℕ
  mins : ℕ
  secs : ℚ
  dir : Char
deriving DecidableEq

/-- Attempts to match the DMS pattern at the start of the character list,
greedily, as the backtracking regex does (the pattern's pieces are delimited
by non-digit characters, so greedy scanning is equivalent). -/
def matchDMSAt (cs : List Char) : Option (DMSPart × List Char) :=
  let dg := takeDigits cs
  if dg.2.1 = 0 then none else
  match dg.2.2 with
  | c1 :: cs2 =>
    if c1 ≠ degChar then none else
    let mn := takeDigits cs2
    if mn.2.1 = 0 then none else
    match mn.2.2 with
    | c2 :: cs4 =>
      if c2 ≠ minChar then none else
      let si := takeDigits cs4
      if si.2.1 = 0 then none else
      let secRest : ℚ × List Char :=
        match si.2.2 with
        | c3 :: cs6 =>
          if c3 = '.' then
            let sf := takeDigits cs6
            ((si.1 : ℚ) + (sf.1 : ℚ) / 10 ^ sf.2.1, sf.2.2)
          else ((si.1 : ℚ), c3 :: cs6)
        | [] => ((si.1 : ℚ), [])
      match secRest.2 with
      | c4 :: cs8 =>
        if c4 ≠ secChar then none else
        match cs8 with
        | c5 :: cs9 =>
          if isDirChar c5 then some (⟨dg.1, mn.1, secRest.1, c5⟩, cs9)
          else none
        | [] => none
      | [] => none
    | [] => none
  | [] => none

/-- Fuelled left-to-right non-overlapping scan, modelling `re.findall`: try a
match at each position, emit it and continue after it, otherwise advance one
character.  Each step consumes at least one character, so fuel equal to the
length of the list suffices. -/
def findDMSAux : ℕ → List Char → List DMSPart
  | 0, _ => []
  | _ + 1, [] => []
  | fuel + 1, c :: rest =>
    match matchDMSAt (c :: rest) with
    | some pr => pr.1 :: findDMSAux fuel pr.2
    | none => findDMSAux fuel rest

/-- Model of `re.findall` for the DMS pattern over the whole input. -/
def findDMS (cs : List Char) : List DMSPart := findDMSAux cs.length cs

/-- Model of the `one(part)` conversion (Checker.py lines 59-64):
`degrees + minutes/60 + seconds/3600`, negated for directions S and W. -/
def dmsValue (p : DMSPart) : ℚ :=
  let v := (p.degs : ℚ) + (p.mins : ℚ) / 60 + p.secs / 3600
  if p.dir = 'S' ∨ p.dir = 'W' then -v else v

/-- Model of the DMS branch (Checker.py lines 56-69): with at least two
pattern matches, the first is latitude and the second is longitude. -/
def dmsBranch (s : String) : Option (ℚ × ℚ) :=
  match findDMS s.data with
  | p1 :: p2 :: _ => some (dmsValue p1, dmsValue p2)
  | _ => none

/-- Model of `parse_decimal_or_dms_text` (Checker.py lines 40-71): empty input
fails; the decimal grammar is tried first, and only on its failure the DMS
grammar. -/
def parse_decimal_or_dms_text (s : String) : Option (ℚ × ℚ) :=
  if s = "" then none
  else
    match decimalBranch s with
    | some r => some r
    | none => dmsBranch s

/-- Model of the query handler (Checker.py lines 204-217): parse, validate the
range, evaluate containment. -/
def handle_query (regions : List SPolygon) (input : String) : QueryResult :=
  match parse_decimal_or_dms_text input with
  | none => QueryResult.parseFailure
  | some r => evaluate_query regions r.1 r.2

/-- End-to-end system: a query is served only when the registry initialized
(Checker.py lines 156-217). -/
def system_query (sub_points main_points : List (ℚ × ℚ)) (input : String) :
    Option QueryResult :=
  (build_registry sub_points main_points).map fun regions =>
    handle_query regions input

/-- The DMS test text of the round-trip scenario,
`30°43'38.3"N 31°17'04.6"E`, assembled from character codes. -/
def dmsText : String :=
  String.mk ([ '3', '0', degChar, '4', '3', minChar, '3', '8', '.', '3',
    secChar, 'N', ' ', '3', '1', degChar, '1', '7', minChar, '0', '4', '.',
    '6', secChar, 'E'])

/-- The square ring of the end-to-end scenario. -/
def squareRing : List (ℚ × ℚ) := [(0, 0), (0, 1), (1, 1), (1, 0)]

/-- The collinear vertex group of the degenerate-input scenario. -/
def colinearPts : List (ℚ × ℚ) := [(0, 0), (0, 1), (0, 2)]

/-- Failing input for the stable-tie clause of the angular sort: seventeen
distinct points on one horizontal line, `(0, k)` for `k = 0..16`.  Their
centroid is `(0, 8)`, exact also in float64, and the angles are
`atan2(0, k - 8)`: exactly `π` for the eight points left of the centroid and
exactly `0` for the nine others (IEEE-exact special values of `atan2`, with
no library rounding variance), so the order within each block is decided
purely by the sort's tie rule.  Seventeen elements exceed the 16-element
insertion-sort cutoff of numpy's default introsort, whose partition step then
swaps equal keys out of input order. -/
def flatLine : List (ℚ × ℚ) := (List.range 17).map fun k => ((0 : ℚ), (k : ℚ))

/-- Two-argument arctangent with the `(-π, π]` range of `np.arctan2`, defined
through the complex argument: `atan2 y x = arg (x + y i)`. -/
noncomputable def atan2 (y x : ℝ) : ℝ := Complex.arg ⟨x, y⟩

/-- Real angle of a point around a centre: the value
`atan2 (lat - center.lat) (lon - center.lon)` computed on line 80 of
Checker.py. -/
noncomputable def angleOf (c p : ℚ × ℚ) : ℝ :=
  atan2 ((delta c p).1 : ℝ) ((delta c p).2 : ℝ)

/-- The complex number `x + y i` attached to a delta pair `d = (y, x)`. -/
noncomputable def ptC (d : ℚ × ℚ) : ℂ := ⟨(d.2 : ℝ), (d.1 : ℝ)⟩

end LandChecker

/- Batteries marks the arithmetic on `Rat` `@[irreducible]`, which hides it
from definitional evaluation although the kernel accepts it; the concrete
scenario computations below re-expose it. -/
set_option allowUnsafeReducibility true

attribute [local semireducible] Rat.add Rat.mul Rat.inv Rat.sub Rat.ofScientific

namespace LandChecker

/-- Unfolding of `atan2` at a rational delta pair. -/
theorem atan2_eq_arg (d : ℚ × ℚ) :
    atan2 (d.1 : ℝ) (d.2 : ℝ) = Complex.arg (ptC d) := rfl

/-- The complex point of a delta pair with nonzero first component is
nonzero. -/
theorem ptC_ne_zero {d : ℚ × ℚ} (h : d.1 ≠ 0) : ptC d ≠ 0 := by
  intro hz
  have him : (ptC d).im = 0 := by rw [hz]; simp
  have : (d.1 : ℝ) = 0 := him
  exact h (by exact_mod_cast this)

/-- The angle of a delta pair is negative exactly when its first component
is. -/
theorem atan2_neg_iff (d : ℚ × ℚ) :
    atan2 (d.1 : ℝ) (d.2 : ℝ) < 0 ↔ d.1 < 0 := by
  rw [atan2_eq_arg, Complex.arg_neg_iff]
  show (d.1 : ℝ) < 0 ↔ d.1 < 0
  exact_mod_cast Iff.rfl

/-- The angle of a delta pair is zero exactly when the pair points along the
nonnegative x-axis (the origin included). -/
theorem atan2_eq_zero_iff (d : ℚ × ℚ) :
    atan2 (d.1 : ℝ) (d.2 : ℝ) = 0 ↔ d.1 = 0 ∧ 0 ≤ d.2 := by
  rw [atan2_eq_arg, Complex.arg_eq_zero_iff]
  show 0 ≤ (d.2 : ℝ) ∧ (d.1 : ℝ) = 0 ↔ d.1 = 0 ∧ 0 ≤ d.2
  constructor
  · rintro ⟨h1, h2⟩
    exact ⟨by exact_mod_cast h2, by exact_mod_cast h1⟩
  · rintro ⟨h1, h2⟩
    exact ⟨by exact_mod_cast h2, by exact_mod_cast h1⟩

/-- The angle of a delta pair is `π` exactly when the pair points along the
negative x-axis. -/
theorem atan2_eq_pi_iff (d : ℚ × ℚ) :
    atan2 (d.1 : ℝ) (d.2 : ℝ) = Real.pi ↔ d.1 = 0 ∧ d.2 < 0 := by
  rw [atan2_eq_arg, Complex.arg_eq_pi_iff]
  show (d.2 : ℝ) < 0 ∧ (d.1 : ℝ) = 0 ↔ d.1 = 0 ∧ d.2 < 0
  constructor
  · rintro ⟨h1, h2⟩
    exact ⟨by exact_mod_cast h2, by exact_mod_cast h1⟩
  · rintro ⟨h1, h2⟩
    exact ⟨by exact_mod_cast h2, by exact_mod_cast h1⟩

/-- Range of `atan2`. -/
theorem atan2_mem_range (d : ℚ × ℚ) :
    -Real.pi < atan2 (d.1 : ℝ) (d.2 : ℝ) ∧ atan2 (d.1 : ℝ) (d.2 : ℝ) ≤ Real.pi :=
  ⟨Complex.neg_pi_lt_arg _, Complex.arg_le_pi _⟩

/-- The angle of a delta pair lies in the open upper half exactly when its
first component is positive. -/
theorem atan2_pos_lt_pi_iff (d : ℚ × ℚ) :
    (0 < atan2 (d.1 : ℝ) (d.2 : ℝ) ∧ atan2 (d.1 : ℝ) (d.2 : ℝ) < Real.pi) ↔
      0 < d.1 := by
  constructor
  · rintro ⟨h1, h2⟩
    rcases lt_trichotomy d.1 0 with hlt | heq | hgt
    · exact absurd ((atan2_neg_iff d).mpr hlt) (by linarith)
    · rcases le_or_lt 0 d.2 with hd2 | hd2
      · exact absurd ((atan2_eq_zero_iff d).mpr ⟨heq, hd2⟩) (by linarith)
      · exact absurd ((atan2_eq_pi_iff d).mpr ⟨heq, hd2⟩) (by linarith)
    · exact hgt
  · intro h
    have him : (0 : ℝ) ≤ (ptC d).im := by
      show (0 : ℝ) ≤ (d.1 : ℝ)
      exact_mod_cast le_of_lt h
    have h0 : 0 ≤ atan2 (d.1 : ℝ) (d.2 : ℝ) := by
      rw [atan2_eq_arg]; exact Complex.arg_nonneg_iff.mpr him
    have hz : atan2 (d.1 : ℝ) (d.2 : ℝ) ≠ 0 := fun hc =>
      absurd ((atan2_eq_zero_iff d).mp hc).1 (ne_of_gt h)
    have hp : atan2 (d.1 : ℝ) (d.2 : ℝ) ≠ Real.pi := fun hc =>
      absurd ((atan2_eq_pi_iff d).mp hc).1 (ne_of_gt h)
    exact ⟨lt_of_le_of_ne h0 (Ne.symm hz), lt_of_le_of_ne (atan2_mem_range d).2 hp⟩

/-- Sine of a difference of complex arguments, as a cross product over the
product of moduli. -/
theorem sin_arg_sub (z w : ℂ) (hz : z ≠ 0) (hw : w ≠ 0) :
    Real.sin (Complex.arg w - Complex.arg z) =
      (z.re * w.im - z.im * w.re) / (Complex.abs z * Complex.abs w) := by
  have hz' : Complex.abs z ≠ 0 := ne_of_gt (Complex.abs.pos hz)
  have hw' : Complex.abs w ≠ 0 := ne_of_gt (Complex.abs.pos hw)
  rw [Real.sin_sub, Complex.sin_arg, Complex.sin_arg, Complex.cos_arg hz,
    Complex.cos_arg hw]
  field_simp
  ring

/-- Within a window of width `π`, order of angles is decided by the sign of
the sine of their difference. -/
theorem lt_iff_sin_sub_pos {a b : ℝ} (h1 : -Real.pi < b - a) (h2 : b - a < Real.pi) :
    a < b ↔ 0 < Real.sin (b - a) := by
  constructor
  · intro h
    exact Real.sin_pos_of_pos_of_lt_pi (by linarith) h2
  · intro h
    by_contra hle
    push_neg at hle
    have hnn : 0 ≤ Real.sin (a - b) :=
      Real.sin_nonneg_of_nonneg_of_le_pi (by linarith) (by linarith)
    have : Real.sin (a - b) = -Real.sin (b - a) := by
      rw [show a - b = -(b - a) by ring, Real.sin_neg]
    linarith [this ▸ hnn]

/-- Within a common open half-plane (both first components nonzero and in
angle windows of width below `π`), order of angles is decided by the sign of
the cross product. -/
theorem atan2_lt_iff_cross {d e : ℚ × ℚ} (hd : d.1 ≠ 0) (he : e.1 ≠ 0)
    (h1 : -Real.pi < atan2 (e.1 : ℝ) (e.2 : ℝ) - atan2 (d.1 : ℝ) (d.2 : ℝ))
    (h2 : atan2 (e.1 : ℝ) (e.2 : ℝ) - atan2 (d.1 : ℝ) (d.2 : ℝ) < Real.pi) :
    atan2 (d.1 : ℝ) (d.2 : ℝ) < atan2 (e.1 : ℝ) (e.2 : ℝ) ↔ 0 < cross2 d e := by
  have hzd := ptC_ne_zero hd
  have hze := ptC_ne_zero he
  rw [lt_iff_sin_sub_pos h1 h2, atan2_eq_arg, atan2_eq_arg,
    sin_arg_sub (ptC d) (ptC e) hzd hze]
  have hcross : (ptC d).re * (ptC e).im - (ptC d).im * (ptC e).re =
      ((cross2 d e : ℚ) : ℝ) := by
    show (d.2 : ℝ) * (e.1 : ℝ) - (d.1 : ℝ) * (e.2 : ℝ) = ((cross2 d e : ℚ) : ℝ)
    push_cast [cross2]
    ring
  rw [hcross]
  have hpos : 0 < Complex.abs (ptC d) * Complex.abs (ptC e) :=
    mul_pos (Complex.abs.pos hzd) (Complex.abs.pos hze)
  rw [lt_div_iff₀ hpos, zero_mul]
  exact_mod_cast Iff.rfl

end LandChecker

namespace LandChecker

/-- Each angle band of `angClass` describes the corresponding range of the
real angle. -/
theorem angClass_spec (d : ℚ × ℚ) :
    (angClass d = 0 ∧ atan2 (d.1 : ℝ) (d.2 : ℝ) < 0) ∨
    (angClass d = 1 ∧ atan2 (d.1 : ℝ) (d.2 : ℝ) = 0) ∨
    (angClass d = 2 ∧ 0 < atan2 (d.1 : ℝ) (d.2 : ℝ) ∧
      atan2 (d.1 : ℝ) (d.2 : ℝ) < Real.pi) ∨
    (angClass d = 3 ∧ atan2 (d.1 : ℝ) (d.2 : ℝ) = Real.pi) := by
  by_cases h1 : d.1 < 0
  · exact Or.inl ⟨by simp [angClass, h1], (atan2_neg_iff d).mpr h1⟩
  · by_cases h2 : d.1 = 0 ∧ 0 ≤ d.2
    · exact Or.inr (Or.inl ⟨by simp [angClass, h1, h2],
        (atan2_eq_zero_iff d).mpr ⟨h2.1, h2.2⟩⟩)
    · by_cases h3 : 0 < d.1
      · exact Or.inr (Or.inr (Or.inl ⟨by simp [angClass, h1, h2, h3],
          (atan2_pos_lt_pi_iff d).mpr h3⟩))
      · have hd1 : d.1 = 0 := le_antisymm (not_lt.mp h3) (not_lt.mp h1)
        have hd2 : d.2 < 0 := by
          by_contra hge
          push_neg at hge
          exact h2 ⟨hd1, hge⟩
        exact Or.inr (Or.inr (Or.inr ⟨by simp [angClass, h1, h2, h3],
          (atan2_eq_pi_iff d).mpr ⟨hd1, hd2⟩⟩))

/-- The decidable comparison `angLt` agrees with the strict order of the real
angles. -/
theorem angLt_iff (d e : ℚ × ℚ) :
    angLt d e = true ↔
      atan2 (d.1 : ℝ) (d.2 : ℝ) < atan2 (e.1 : ℝ) (e.2 : ℝ) := by
  simp only [angLt, decide_eq_true_eq]
  have hrd := atan2_mem_range d
  have hre := atan2_mem_range e
  have hπ := Real.pi_pos
  rcases angClass_spec d with ⟨hcd, had⟩ | ⟨hcd, had⟩ | ⟨hcd, had, had2⟩ |
    ⟨hcd, had⟩ <;>
    rcases angClass_spec e with ⟨hce, hae⟩ | ⟨hce, hae⟩ | ⟨hce, hae, hae2⟩ |
      ⟨hce, hae⟩
  · simp only [hcd, hce]
    norm_num
    have hd1 : d.1 ≠ 0 := ne_of_lt ((atan2_neg_iff d).mp had)
    have he1 : e.1 ≠ 0 := ne_of_lt ((atan2_neg_iff e).mp hae)
    exact (atan2_lt_iff_cross hd1 he1 (by linarith) (by linarith)).symm
  · simp only [hcd, hce]
    norm_num
    linarith
  · simp only [hcd, hce]
    norm_num
    linarith
  · simp only [hcd, hce]
    norm_num
    linarith
  · simp only [hcd, hce]
    norm_num
    linarith
  · simp only [hcd, hce]
    norm_num
    linarith
  · simp only [hcd, hce]
    norm_num
    linarith
  · simp only [hcd, hce]
    norm_num
    linarith
  · simp only [hcd, hce]
    norm_num
    linarith
  · simp only [hcd, hce]
    norm_num
    linarith
  · simp only [hcd, hce]
    norm_num
    have hd1 : d.1 ≠ 0 := ne_of_gt ((atan2_pos_lt_pi_iff d).mp ⟨had, had2⟩)
    have he1 : e.1 ≠ 0 := ne_of_gt ((atan2_pos_lt_pi_iff e).mp ⟨hae, hae2⟩)
    exact (atan2_lt_iff_cross hd1 he1 (by linarith) (by linarith)).symm
  · simp only [hcd, hce]
    norm_num
    linarith
  · simp only [hcd, hce]
    norm_num
    linarith
  · simp only [hcd, hce]
    norm_num
    linarith
  · simp only [hcd, hce]
    norm_num
    linarith
  · simp only [hcd, hce]
    norm_num
    linarith

end LandChecker

namespace LandChecker

/-- Characterization of the argsort comparator: ascending real angle, ties
broken by index. -/
theorem angleLE_iff (c : ℚ × ℚ) (a b : ℕ × (ℚ × ℚ)) :
    angleLE c a b = true ↔
      (angleOf c a.2 < angleOf c b.2 ∨
        (angleOf c a.2 ≤ angleOf c b.2 ∧ a.1 ≤ b.1)) := by
  have h1 := angLt_iff (delta c a.2) (delta c b.2)
  have h2 := angLt_iff (delta c b.2) (delta c a.2)
  simp only [angleLE, Bool.or_eq_true, Bool.and_eq_true, Bool.not_eq_true',
    decide_eq_true_eq, angleOf]
  constructor
  · rintro (h | ⟨h, hle⟩)
    · exact Or.inl (h1.mp h)
    · refine Or.inr ⟨?_, hle⟩
      have hnot : ¬ (angLt (delta c b.2) (delta c a.2) = true) := by simp [h]
      exact le_of_not_lt fun hc => hnot (h2.mpr hc)
  · rintro (h | ⟨hle2, hle⟩)
    · exact Or.inl (h1.mpr h)
    · by_cases hb : angLt (delta c a.2) (delta c b.2) = true
      · exact Or.inl hb
      · refine Or.inr ⟨?_, hle⟩
        cases hEq : angLt (delta c b.2) (delta c a.2)
        · rfl
        · exact absurd (h2.mp hEq) (not_lt.mpr hle2)

/-- Totality of the argsort comparator. -/
theorem angleLE_total (c : ℚ × ℚ) (a b : ℕ × (ℚ × ℚ)) :
    angleLE c a b = true ∨ angleLE c b a = true := by
  rw [angleLE_iff, angleLE_iff]
  rcases lt_trichotomy (angleOf c a.2) (angleOf c b.2) with h | h | h
  · exact Or.inl (Or.inl h)
  · rcases le_total a.1 b.1 with hi | hi
    · exact Or.inl (Or.inr ⟨le_of_eq h, hi⟩)
    · exact Or.inr (Or.inr ⟨le_of_eq h.symm, hi⟩)
  · exact Or.inr (Or.inl h)

/-- Transitivity of the argsort comparator. -/
theorem angleLE_trans (c : ℚ × ℚ) (a b d : ℕ × (ℚ × ℚ))
    (hab : angleLE c a b = true) (hbd : angleLE c b d = true) :
    angleLE c a d = true := by
  rw [angleLE_iff] at hab hbd ⊢
  rcases hab with h1 | ⟨h1a, h1b⟩ <;> rcases hbd with h2 | ⟨h2a, h2b⟩
  · exact Or.inl (lt_trans h1 h2)
  · exact Or.inl (lt_of_lt_of_le h1 h2a)
  · exact Or.inl (lt_of_le_of_lt h1a h2)
  · exact Or.inr ⟨le_trans h1a h2a, le_trans h1b h2b⟩

/-- C6: `close_ring` is idempotent: once closed, the first and last points
agree and a second application changes nothing. -/
theorem close_ring_idem {α : Type} [DecidableEq α] (r : List α) :
    close_ring (close_ring r) = close_ring r := by
  cases r with
  | nil => rfl
  | cons p rest =>
    rcases hL : (p :: rest).getLast? with _ | l
    · simp at hL
    · by_cases hpl : p = l
      · subst hpl
        have h1 : close_ring (p :: rest) = p :: rest := by
          simp [close_ring, hL]
        rw [h1, h1]
      · have h1 : close_ring (p :: rest) = p :: (rest ++ [p]) := by
          simp [close_ring, hL, hpl]
        have hL2 : (p :: (rest ++ [p])).getLast? = some p := by
          rw [← List.cons_append]
          exact List.getLast?_concat _
        rw [h1]
        simp [close_ring, hL2]

/-- C9: the angular ordering returns a permutation of the input: same length
and same multiset.  The embedding is pure, matching the non-destructive
`np.argsort` read of the input list. -/
theorem order_points_by_angle_perm (pts : List (ℚ × ℚ)) (hne : pts ≠ []) :
    List.Perm (order_points_by_angle pts) pts ∧
      (order_points_by_angle pts).length = pts.length ∧
      (↑(order_points_by_angle pts) : Multiset (ℚ × ℚ)) = (↑pts : Multiset (ℚ × ℚ)) := by
  have hperm : List.Perm (orderIdx pts) pts.enum := List.perm_insertionSort _ _
  have h2 : List.Perm (order_points_by_angle pts) pts := by
    have := hperm.map Prod.snd
    rwa [List.enum_map_snd] at this
  exact ⟨h2, h2.length_eq, (Multiset.coe_eq_coe).mpr h2⟩

end LandChecker

namespace LandChecker

/-- C1: against a successfully built registry, an in-range containment query
answers true exactly when some region covers the point `(lon, lat)`, the
regions being evaluated in registry order with a short-circuiting or; and for
the registry built from the square ring, `(0.5, 0.5)` is inside, `(2, 2)` is
outside, and the exact vertex `(0, 0)` is inside. -/
theorem containment_iff_any_covers :
    (∀ (regions : List SPolygon) (lat lon : ℚ), rangeOk lat lon = true →
        (evaluate_query regions lat lon = QueryResult.answer true ↔
          ∃ g ∈ regions, covers g (lon, lat) = true)) ∧
      ∃ g : SPolygon, (build_safe_polygon squareRing).1 = some g ∧
        evaluate_query [g] (1/2) (1/2) = QueryResult.answer true ∧
        evaluate_query [g] 2 2 = QueryResult.answer false ∧
        evaluate_query [g] 0 0 = QueryResult.answer true := by
  constructor
  · intro regions lat lon h
    simp only [evaluate_query, if_pos h, QueryResult.answer.injEq, containment,
      List.any_eq_true]
  · exact ⟨⟨[(0, 0), (1, 0), (1, 1), (0, 1), (0, 0)]⟩,
      by decide, by decide, by decide, by decide⟩

/-- C2: a parsed query point with latitude or longitude out of range is
rejected with the range error and containment is never evaluated to a
boolean answer. -/
theorem out_of_range_rejected (regions : List SPolygon) (lat lon : ℚ)
    (h : ¬(-90 ≤ lat ∧ lat ≤ 90 ∧ -180 ≤ lon ∧ lon ≤ 180)) :
    evaluate_query regions lat lon = QueryResult.rangeError ∧
      ∀ b : Bool, evaluate_query regions lat lon ≠ QueryResult.answer b := by
  have hrange : rangeOk lat lon = false := by
    simp only [rangeOk, decide_eq_false_iff_not]
    exact h
  have h1 : evaluate_query regions lat lon = QueryResult.rangeError := by
    simp [evaluate_query, hrange]
  refine ⟨h1, fun b hb => ?_⟩
  rw [h1] at hb
  exact QueryResult.noConfusion hb

/-- C5: the decimal parse of the round-trip text is exact, the DMS parse is
`degrees + minutes/60 + seconds/3600` with N and E positive, and both DMS
components are within `1e-4` degrees of the expected values. -/
theorem parser_round_trip :
    parse_decimal_or_dms_text "30.727313, 31.284638" =
        some (30.727313, 31.284638) ∧
      parse_decimal_or_dms_text dmsText =
        some (30 + 43/60 + (38 + 3/10)/3600, 31 + 17/60 + (4 + 6/10)/3600) ∧
      |(30 + 43/60 + (38 + 3/10)/3600 : ℚ) - 30.727306| ≤ 1/10000 ∧
      |(31 + 17/60 + (4 + 6/10)/3600 : ℚ) - 31.284611| ≤ 1/10000 :=
  ⟨by decide, by decide, by decide, by decide⟩

/-- C7: a vertex group whose repaired polygon is empty (its closed ordered
shell is fully collinear) yields no region: the builder returns NONE for the
polygon instead of a region that would answer false everywhere. -/
theorem degenerate_region_none (pts : List (ℚ × ℚ))
    (h : degenerate
        ((close_ring (order_points_by_angle pts)).map fun q => (q.2, q.1)) = true) :
    (build_safe_polygon pts).1 = none := by
  simp [build_safe_polygon, h]

/-- C8: when either vertex group fails to produce a region, the registry does
not initialize and the system serves no containment query on any input. -/
theorem registry_fail_fast (sub main : List (ℚ × ℚ))
    (h : (build_safe_polygon sub).1 = none ∨ (build_safe_polygon main).1 = none) :
    build_registry sub main = none ∧
      ∀ input : String, system_query sub main input = none := by
  have hreg : build_registry sub main = none := by
    rcases h with h | h
    · cases hm : (build_safe_polygon main).1 <;> simp [build_registry, h, hm]
    · cases hs : (build_safe_polygon sub).1 <;> simp [build_registry, h, hs]
  exact ⟨hreg, fun input => by simp [system_query, hreg]⟩

/-- C10: the polygon builder returns the angularly ordered closed ring as its
second result on every input, and on a degenerate (empty after repair) input
the whole result is the pair of NONE with that ring. -/
theorem builder_returns_ring (pts : List (ℚ × ℚ)) :
    (build_safe_polygon pts).2 = close_ring (order_points_by_angle pts) ∧
      ((build_safe_polygon pts).1 = none →
        build_safe_polygon pts = (none, close_ring (order_points_by_angle pts))) := by
  have hsnd : (build_safe_polygon pts).2 = close_ring (order_points_by_angle pts) := by
    by_cases h : degenerate
        ((close_ring (order_points_by_angle pts)).map fun q => (q.2, q.1)) = true
    · simp [build_safe_polygon, h]
    · simp [build_safe_polygon, h]
  refine ⟨hsnd, fun h => ?_⟩
  have hpair : build_safe_polygon pts =
      ((build_safe_polygon pts).1, (build_safe_polygon pts).2) := rfl
  rw [hpair, h, hsnd]

/-- C3 counterexample: the DMS round-trip text splits into two tokens whose
first is non-numeric, so its decimal parse fails, yet the parser does not
yield NONE: the failure falls through to the DMS grammar. -/
theorem decimal_failure_not_none :
    2 ≤ (splitTokens dmsText).length ∧
      pyFloat (List.headD (splitTokens dmsText) ("")) = none ∧
      parse_decimal_or_dms_text dmsText ≠ none :=
  ⟨by decide, by decide, by decide⟩

/-- C3 amended: when the decimal grammar fails (at least two tokens with a
non-numeric token among the first two) and the DMS grammar also fails to find
two matches, the parser yields NONE. -/
theorem parse_none_of_both_fail (s : String) (a b : String) (rest : List String)
    (hsplit : splitTokens s = a :: b :: rest)
    (hnum : pyFloat a = none ∨ pyFloat b = none)
    (hdms : (findDMS s.data).length < 2) :
    parse_decimal_or_dms_text s = none := by
  have hdec : decimalBranch s = none := by
    have hred : decimalBranch s =
        match pyFloat a, pyFloat b with
        | some lat, some lon => some (lat, lon)
        | _, _ => none := by
      rw [decimalBranch, hsplit]
    rw [hred]
    rcases hnum with h | h
    · rw [h]
    · rw [h]
      cases pyFloat a <;> rfl
  have hdmsb : dmsBranch s = none := by
    rw [dmsBranch]
    cases hf : findDMS s.data with
    | nil => rfl
    | cons p1 t =>
      cases t with
      | nil => rfl
      | cons p2 t2 =>
        rw [hf] at hdms
        simp at hdms
        omega
  rw [parse_decimal_or_dms_text]
  by_cases hs : s = ""
  · rw [if_pos hs]
  · rw [if_neg hs, hdec, hdmsb]

end LandChecker

namespace LandChecker

/-- Witness for C1: the containment equivalence applied to the empty registry
at the in-range origin. -/
theorem containment_iff_any_covers_witness :
    rangeOk 0 0 = true ∧
      (evaluate_query [] 0 0 = QueryResult.answer true ↔
        ∃ g ∈ ([] : List SPolygon), covers g (0, 0) = true) :=
  ⟨by decide, containment_iff_any_covers.1 [] 0 0 (by decide)⟩

/-- Witness for C2: the query `contains(91, 0)` is rejected, not answered. -/
theorem out_of_range_rejected_witness :
    evaluate_query [] 91 0 = QueryResult.rangeError ∧
      evaluate_query [] 91 0 ≠ QueryResult.answer true :=
  ⟨(out_of_range_rejected [] 91 0 (by decide)).1,
    (out_of_range_rejected [] 91 0 (by decide)).2 true⟩

/-- Witness for the amended C3 on a two-token non-numeric text with no DMS
match. -/
theorem parse_none_of_both_fail_witness :
    splitTokens ("abc def") = [ "abc", "def"] ∧
      pyFloat ("abc") = none ∧
      (findDMS ("abc def").data).length < 2 ∧
      parse_decimal_or_dms_text ("abc def") = none :=
  ⟨by decide, by decide, by decide,
    parse_none_of_both_fail ("abc def") ("abc") ("def") [] (by decide)
      (Or.inl (by decide)) (by decide)⟩

/-- Witness for C6 on a concrete two-point ring. -/
theorem close_ring_idem_witness :
    close_ring (close_ring [((0 : ℚ), (0 : ℚ)), ((0 : ℚ), (1 : ℚ))]) =
      close_ring [((0 : ℚ), (0 : ℚ)), ((0 : ℚ), (1 : ℚ))] :=
  close_ring_idem [((0 : ℚ), (0 : ℚ)), ((0 : ℚ), (1 : ℚ))]

/-- Witness for C7: the collinear vertex group produces no region. -/
theorem degenerate_region_none_witness :
    degenerate ((close_ring (order_points_by_angle colinearPts)).map
        fun q => (q.2, q.1)) = true ∧
      (build_safe_polygon colinearPts).1 = none :=
  ⟨by decide, degenerate_region_none colinearPts (by decide)⟩

/-- Witness for C8: with the collinear sub group the registry fails and no
query is served. -/
theorem registry_fail_fast_witness :
    build_registry colinearPts squareRing = none ∧
      system_query colinearPts squareRing ("") = none :=
  ⟨(registry_fail_fast colinearPts squareRing (Or.inl (by decide))).1,
    (registry_fail_fast colinearPts squareRing (Or.inl (by decide))).2 ("")⟩

/-- Witness for C9: the angular ordering of the square ring is a
permutation. -/
theorem order_points_by_angle_perm_witness :
    List.Perm (order_points_by_angle squareRing) squareRing ∧
      (order_points_by_angle squareRing).length = squareRing.length ∧
      (↑(order_points_by_angle squareRing) : Multiset (ℚ × ℚ)) =
        (↑squareRing : Multiset (ℚ × ℚ)) :=
  order_points_by_angle_perm squareRing (by decide)

/-- Witness for C10: the degenerate collinear group still yields the ordered
closed ring. -/
theorem builder_returns_ring_witness :
    (build_safe_polygon colinearPts).2 =
        close_ring (order_points_by_angle colinearPts) ∧
      build_safe_polygon colinearPts =
        (none, close_ring (order_points_by_angle colinearPts)) :=
  ⟨(builder_returns_ring colinearPts).1,
    (builder_returns_ring colinearPts).2 (by decide)⟩

end LandChecker

namespace LandChecker

/-- C4 (code bug): evaluation at the failing input.  The seventeen flat-line
points have exact angle ties among distinct points: around the centroid
`(0, 8)` the angle is exactly `π` for `(0, 0)` and `(0, 7)` and exactly `0`
for `(0, 9)` and `(0, 16)`, so the order within the two blocks is fixed only
by the sort's tie rule.  Under the stable tie order the claim mandates, each
block stays in input order, as the final conjunct computes — a tie order the
code's default (unstable) `np.argsort` does not guarantee at this size. -/
theorem flatLine_angle_ties :
    centroid flatLine = (0, 8) ∧
      ((0 : ℚ), (0 : ℚ)) ≠ ((0 : ℚ), (7 : ℚ)) ∧
      angleOf (0, 8) (0, 0) = Real.pi ∧
      angleOf (0, 8) (0, 7) = Real.pi ∧
      ((0 : ℚ), (9 : ℚ)) ≠ ((0 : ℚ), (16 : ℚ)) ∧
      angleOf (0, 8) (0, 9) = 0 ∧
      angleOf (0, 8) (0, 16) = 0 ∧
      order_points_by_angle flatLine =
        [(0, 8), (0, 9), (0, 10), (0, 11), (0, 12), (0, 13), (0, 14), (0, 15),
          (0, 16), (0, 0), (0, 1), (0, 2), (0, 3), (0, 4), (0, 5), (0, 6),
          (0, 7)] := by
  refine ⟨by decide, by decide, ?_, ?_, by decide, ?_, ?_, by decide⟩
  · exact (atan2_eq_pi_iff (delta (0, 8) (0, 0))).mpr (by decide)
  · exact (atan2_eq_pi_iff (delta (0, 8) (0, 7))).mpr (by decide)
  · exact (atan2_eq_zero_iff (delta (0, 8) (0, 9))).mpr (by decide)
  · exact (atan2_eq_zero_iff (delta (0, 8) (0, 16))).mpr (by decide)

end LandChecker
